import Mathlib

/-!
Verification development for the Saint-Daniels Rewards service.

The Python sources are shallowly embedded as executable Lean definitions:

* monetary values (`Decimal` with two fractional digits, DB column
  `Numeric(10, 2)`) are modelled as `Int` values counted in hundredths of a
  dollar; the webhook conversion `Decimal(cents) / 100` from cents to dollars
  is the identity on this representation;
* UUIDs are modelled as `Nat`, timestamps as `Nat`; both are assigned by
  ambient generators (`uuid.uuid4()`, `datetime.utcnow()`) and are therefore
  passed to the operations as explicit arguments;
* the classifier cache (a Python dict) is an association list with
  first-match lookup; the source only ever inserts keys that a lookup in the
  same call just reported absent, so insertion is modelled as `cons`;
* database tables are lists kept in insertion order; the history query's
  `ORDER BY created_at DESC` (with no secondary sort key) is modelled as a
  stable sort, i.e. rows with equal timestamps stay in table order;
* fallible operations return `Except`; an uncaught Python exception is the
  `.error` case.
-/

/-! ## src/policy_engine/categories.py -/

def ALLOWED_CATEGORIES : List String :=
  ["groceries", "food", "fresh_produce", "meat", "dairy", "bakery",
   "frozen_food", "canned_goods", "beverages_non_alcoholic", "snacks",
   "cereal", "pasta", "rice", "bread", "seafood",
   "pharmacy", "prescription", "over_the_counter", "vitamins",
   "health_supplements", "medical_supplies", "baby_formula", "baby_food"]

def DISALLOWED_CATEGORIES : List String :=
  ["alcohol", "beer", "wine", "liquor", "tobacco", "cigarettes", "cigars",
   "vaping", "smoking_products",
   "hot_food", "prepared_food", "deli_hot", "hot_deli", "restaurant",
   "fast_food",
   "non_food", "household", "cleaning_supplies", "paper_products",
   "pet_food", "cosmetics", "toiletries_non_essential", "clothing",
   "electronics", "appliances"]

/-- `UPC_PATTERNS` is a Python dict; dicts iterate in insertion order, so it
is embedded as an association list in source order. -/
def UPC_PATTERNS : List (String × List String) :=
  [("alcohol", ["beer", "wine", "liquor", "spirits", "alcohol"]),
   ("tobacco", ["cigarette", "cigar", "tobacco", "smoking"]),
   ("hot_food", ["hot", "prepared", "deli_hot", "ready_to_eat"])]

/-! ## src/policy_engine/upc_classifier.py -/

abbrev Cache := List (String × String)

/-- Python truthiness of an optional string: `None` and `""` are falsy. -/
def isTruthy : Option String → Bool
  | none => false
  | some s => !(s == "")

def optVal (o : Option String) : String := o.getD ""

/-- `pat` is a prefix of `l` (character-wise). -/
def charsPrefix : List Char → List Char → Bool
  | [], _ => true
  | _ :: _, [] => false
  | p :: ps, c :: cs => p == c && charsPrefix ps cs

/-- Python's substring test `pat in hay` on the underlying characters. -/
def charsContain (pat : List Char) : List Char → Bool
  | [] => pat.isEmpty
  | c :: cs => charsPrefix pat (c :: cs) || charsContain pat cs

def strContainsSub (hay pat : String) : Bool :=
  charsContain pat.toList hay.toList

/-- Python `str.lower()` (the sources only use ASCII). -/
def strLower (s : String) : String := String.mk (s.toList.map Char.toLower)

/-- The nested loop `for disallowed_cat, patterns in UPC_PATTERNS.items():
for pattern in patterns: if pattern in product_lower: return disallowed_cat`;
the first category that has a matching pattern wins. -/
def matchPatterns (productLower : String) : List (String × List String) → Option String
  | [] => none
  | (cat, pats) :: rest =>
    if pats.any (fun p => strContainsSub productLower p) then some cat
    else matchPatterns productLower rest

/-- `UPCClassifier.classify_item`.  The classifier's mutable
`category_cache` dict is threaded explicitly; the result is the returned
category together with the updated cache.  The local Python variable
`identifier = upc or sku` is inlined as `if isTruthy upc then upc else sku`. -/
def classify_item (upc sku product_name category : Option String)
    (cache : Cache) : String × Cache :=
  if isTruthy category &&
      (ALLOWED_CATEGORIES ++ DISALLOWED_CATEGORIES).contains (optVal category) then
    (optVal category, cache)
  else
    match (if isTruthy (if isTruthy upc then upc else sku) then
        cache.lookup (optVal (if isTruthy upc then upc else sku)) else none) with
    | some cached => (cached, cache)
    | none =>
      if isTruthy product_name then
        match matchPatterns (strLower (optVal product_name)) UPC_PATTERNS with
        | some cat =>
          (cat, if isTruthy (if isTruthy upc then upc else sku) then
              (optVal (if isTruthy upc then upc else sku), cat) :: cache else cache)
        | none => ("unknown", cache)
      else ("unknown", cache)

/-- `UPCClassifier.is_eligible`. -/
def is_eligible (category : String) : Bool :=
  if ALLOWED_CATEGORIES.contains category then true
  else if DISALLOWED_CATEGORIES.contains category then false
  else false

/-! ## src/policy_engine/snap_policy_engine.py -/

inductive PolicyDecision where
  | approve
  | deny
  | partialApproval
deriving DecidableEq, Repr

/-- One raw item dict from the request body (with the `.get` defaults of
`check_transaction_eligibility` already applied). -/
structure ItemData where
  upc : Option String
  sku : Option String
  product_name : Option String
  category : Option String
  price : Int
  quantity : Int
deriving DecidableEq, Repr

/-- The `Item` object built inside `check_transaction_eligibility`. -/
structure ProcessedItem where
  upc : Option String
  sku : Option String
  product_name : Option String
  category : String
  price : Int
  quantity : Int
  is_eligible : Bool
deriving DecidableEq, Repr

/-- `Item.__init__`: `self.category = category or
classifier.classify_item(upc, sku, product_name)` (the declared category is
used as-is when truthy; otherwise the classifier runs with no declared
category), then `self.is_eligible = classifier.is_eligible(self.category)`. -/
def mkItem (d : ItemData) (cache : Cache) : ProcessedItem × Cache :=
  let res :=
    if isTruthy d.category then (optVal d.category, cache)
    else classify_item d.upc d.sku d.product_name none cache
  ({ upc := d.upc, sku := d.sku, product_name := d.product_name,
     category := res.fst, price := d.price, quantity := d.quantity,
     is_eligible := is_eligible res.fst }, res.snd)

/-- The `for item_data in items:` loop of `check_transaction_eligibility`,
with its three accumulators (`processed_items`, `approved_amount`,
`denied_items`) and the classifier cache. -/
def policyLoop : List ItemData → List ProcessedItem → Int → List ProcessedItem →
    Cache → List ProcessedItem × Int × List ProcessedItem × Cache
  | [], processed, approved, denied, cache => (processed, approved, denied, cache)
  | d :: rest, processed, approved, denied, cache =>
    let r := mkItem d cache
    policyLoop rest (processed ++ [r.fst])
      (if r.fst.is_eligible then approved + r.fst.price * r.fst.quantity else approved)
      (if r.fst.is_eligible then denied else denied ++ [r.fst])
      r.snd

/-- `PolicyEngine.check_transaction_eligibility`. -/
def check_transaction_eligibility (items : List ItemData) (cache : Cache) :
    PolicyDecision × List ProcessedItem × Int × Cache :=
  let r := policyLoop items [] 0 [] cache
  let processed := r.fst
  let approved := r.snd.fst
  let denied := r.snd.snd.fst
  let decision :=
    if denied.length = 0 then PolicyDecision.approve
    else if denied.length = processed.length then PolicyDecision.deny
    else PolicyDecision.partialApproval
  (decision, processed, approved, r.snd.snd.snd)

/-! ## src/db/models.py and src/ledger/transactions.py -/

structure LedgerEntry where
  transaction_id : Nat
  user_id : Nat
  amount : Int
  reason : String
  stripe_ref : Option String
  category : Option String
  meta : Option String
  created_at : Nat
deriving DecidableEq, Repr

/-- The `transactions` table, rows in insertion order. -/
structure LedgerDB where
  entries : List LedgerEntry
deriving DecidableEq, Repr

/-- `create_transaction`: validates the reason tag and a non-zero amount,
then appends one immutable row.  `txid` and `now` are the ambient
`uuid.uuid4()` / `datetime.utcnow()` values assigned by the ledger. -/
def create_transaction (db : LedgerDB) (user_id : Nat) (amount : Int)
    (reason : String) (stripe_ref category meta : Option String)
    (txid now : Nat) : Except String (LedgerEntry × LedgerDB) :=
  if !(["earn", "spend", "redeem"].contains reason) then
    .error ("Invalid transaction reason: " ++ reason)
  else if amount == 0 then
    .error "Transaction amount cannot be zero"
  else
    let e : LedgerEntry :=
      { transaction_id := txid, user_id := user_id, amount := amount,
        reason := reason, stripe_ref := stripe_ref, category := category,
        meta := meta, created_at := now }
    .ok (e, ⟨db.entries ++ [e]⟩)

/-- `calculate_balance_from_ledger`: `SELECT SUM(amount) WHERE user_id = …`,
with `Decimal(result or 0)` turning the empty-table `NULL` into `0`. -/
def calculate_balance_from_ledger (db : LedgerDB) (user_id : Nat) : Int :=
  ((db.entries.filter (fun e => e.user_id == user_id)).map (fun e => e.amount)).sum

/-- `get_user_balance` (logging aside, it just delegates). -/
def get_user_balance (db : LedgerDB) (user_id : Nat) : Int :=
  calculate_balance_from_ledger db user_id

/-- The `ORDER BY created_at DESC` key: newest first, no secondary key. -/
def histDesc (a b : LedgerEntry) : Prop := b.created_at ≤ a.created_at

instance : DecidableRel histDesc := fun a b => Nat.decLe b.created_at a.created_at

/-- `get_transaction_history`: filter by user, sort newest-first by
`created_at` only (ties stay in table order), then `OFFSET`/`LIMIT`. -/
def get_transaction_history (db : LedgerDB) (user_id : Nat)
    (limit offset : Nat) : List LedgerEntry :=
  let rows := db.entries.filter (fun e => e.user_id == user_id)
  ((List.insertionSort histDesc rows).drop offset).take limit

/-! ## src/stripe_integration/webhooks.py -/

/-- The parts of a Stripe event's `data.object` the handlers read.
`amount` is in cents; after the handlers' exact `Decimal(amount) / 100`
conversion to dollars it is the same number in hundredths-of-a-dollar. -/
structure StripeEventObject where
  object_id : String
  amount : Int
  metadata_user_id : Option Nat
  destination : Option String
deriving DecidableEq, Repr

structure StripeEvent where
  id : String
  event_type : String
  obj : StripeEventObject
deriving DecidableEq, Repr

/-- Mutable state the webhook handler touches: the ledger, the
`stripe_accounts` table (`stripe_account_id → user_id`), and the in-process
`processed_events` dedup dict (only its key set matters: values are `True`). -/
structure DBState where
  ledger : LedgerDB
  stripe_accounts : List (String × Nat)
  processed_events : List String
deriving DecidableEq, Repr

/-- `_handle_payment_succeeded`: without a `metadata.user_id` it only warns;
otherwise it appends a debit (`-amount`, reason `spend`). -/
def handlePaymentSucceeded (s : DBState) (ev : StripeEvent) (txid now : Nat) :
    Except String DBState :=
  match ev.obj.metadata_user_id with
  | none => .ok s
  | some uid =>
    match create_transaction s.ledger uid (-ev.obj.amount) "spend"
        (some ev.obj.object_id) none (some "payment_intent.succeeded") txid now with
    | .error e => .error e
    | .ok r => .ok { s with ledger := r.snd }

/-- `_handle_transfer_created`: credit (`earn`) for the user owning the
destination Stripe account, if any. -/
def handleTransferCreated (s : DBState) (ev : StripeEvent) (txid now : Nat) :
    Except String DBState :=
  match (match ev.obj.destination with
         | none => none
         | some d => s.stripe_accounts.lookup d) with
  | none => .ok s
  | some uid =>
    match create_transaction s.ledger uid ev.obj.amount "earn"
        (some ev.obj.object_id) none (some "transfer.created") txid now with
    | .error e => .error e
    | .ok r => .ok { s with ledger := r.snd }

structure WebhookOutcome where
  status : String
  event_id : String
deriving DecidableEq, Repr

/-- `handle_stripe_webhook` after successful signature verification (the
`stripe.Webhook.construct_event` call is the external trust boundary):
dedup check, dispatch by event type, then mark the event id processed. -/
def handle_stripe_webhook (s : DBState) (ev : StripeEvent) (txid now : Nat) :
    Except String (WebhookOutcome × DBState) :=
  if s.processed_events.contains ev.id then
    .ok ({ status := "already_processed", event_id := ev.id }, s)
  else
    match (if ev.event_type == "payment_intent.succeeded" then
        handlePaymentSucceeded s ev txid now
      else if ev.event_type == "payment_intent.payment_failed" then
        .ok s
      else if ev.event_type == "transfer.created" then
        handleTransferCreated s ev txid now
      else if ev.event_type == "account.updated" then
        .ok s
      else
        .ok s : Except String DBState) with
    | .error e => .error e
    | .ok s2 =>
      .ok ({ status := "success", event_id := ev.id },
           { s2 with processed_events := ev.id :: s2.processed_events })

/-! ## src/api/routes.py — the `/spend` route -/

structure HttpError where
  code : Nat
  detail : String
deriving DecidableEq, Repr

structure SpendResult where
  transaction_id : Nat
  status : String
  amount : Int
  payment_intent_id : String
  decision : PolicyDecision
  approved_amount : Int
deriving DecidableEq, Repr

/-- `spend_rewards`: amount/items validation, balance pre-read, policy
evaluation, the deny / partially-denied branches, the silent substitution
`amount = approved_amount` on a proceeding partial decision, external
authorization (modelled by the collaborator's answer `authorized`,
`payment_intent_id`), and the final debit append. -/
def spend_rewards (db : LedgerDB) (cache : Cache) (items : List ItemData)
    (amount : Int) (user_id : Nat) (authorized : Bool)
    (payment_intent_id : String) (txid now : Nat) :
    Except HttpError (SpendResult × LedgerDB × Cache) :=
  if amount ≤ 0 then
    .error ⟨400, "Amount must be positive"⟩
  else if items.isEmpty then
    .error ⟨400, "Items list cannot be empty"⟩
  else
    let balance := get_user_balance db user_id
    if balance < amount then
      .error ⟨400, "Insufficient balance"⟩
    else
      let r := check_transaction_eligibility items cache
      let decision := r.fst
      let approved_amount := r.snd.snd.fst
      let cache2 := r.snd.snd.snd
      if decision = PolicyDecision.deny then
        .error ⟨403, "Transaction denied: All items are ineligible for SNAP-like redemption"⟩
      else if decision = PolicyDecision.partialApproval ∧ approved_amount < amount then
        .error ⟨403, "Transaction partially denied"⟩
      else
        let amount2 := if decision = PolicyDecision.partialApproval then approved_amount else amount
        if !authorized then
          .error ⟨500, "Failed to authorize transaction with Stripe"⟩
        else
          match create_transaction db user_id (-amount2) "spend"
              (some payment_intent_id) (some "mixed") none txid now with
          | .error e => .error ⟨500, e⟩
          | .ok t =>
            .ok ({ transaction_id := t.fst.transaction_id, status := "approved",
                   amount := amount2, payment_intent_id := payment_intent_id,
                   decision := decision, approved_amount := approved_amount },
                 t.snd, cache2)

/-! ## Helper lemmas -/

lemma create_transaction_ok {db : LedgerDB} {user_id : Nat} {amount : Int}
    {reason : String} {sr cat m : Option String} {txid now : Nat}
    {e : LedgerEntry} {db2 : LedgerDB}
    (h : create_transaction db user_id amount reason sr cat m txid now = .ok (e, db2)) :
    e = ⟨txid, user_id, amount, reason, sr, cat, m, now⟩ ∧
    db2 = ⟨db.entries ++ [e]⟩ ∧ amount ≠ 0 ∧
    (["earn", "spend", "redeem"] : List String).contains reason = true := by
  unfold create_transaction at h
  split at h
  · exact absurd h (by simp)
  · split at h
    · exact absurd h (by simp)
    · rename_i h1 h2
      simp only [Except.ok.injEq, Prod.mk.injEq] at h
      obtain ⟨he, hdb⟩ := h
      subst he
      refine ⟨rfl, hdb.symm, ?_, ?_⟩
      · intro hz
        exact h2 (by simp [hz])
      · cases hb : (["earn", "spend", "redeem"] : List String).contains reason
        · exact absurd (by rw [hb]; rfl) h1
        · rfl

lemma balance_append_one (db : LedgerDB) (e : LedgerEntry) (uid : Nat) :
    calculate_balance_from_ledger ⟨db.entries ++ [e]⟩ uid =
      calculate_balance_from_ledger db uid +
        (if e.user_id = uid then e.amount else 0) := by
  unfold calculate_balance_from_ledger
  simp only [List.filter_append, List.map_append, List.sum_append]
  by_cases h : e.user_id = uid
  · have hb : (e.user_id == uid) = true := by simp [h]
    simp [List.filter, hb, h]
  · have hb : (e.user_id == uid) = false := by simp [h]
    simp [List.filter, hb, h]

lemma history_all (db : LedgerDB) (uid : Nat) :
    get_transaction_history db uid db.entries.length 0 =
      List.insertionSort histDesc (db.entries.filter (fun e => e.user_id == uid)) := by
  unfold get_transaction_history
  simp only [List.drop_zero]
  apply List.take_of_length_le
  rw [List.length_insertionSort]
  exact List.length_filter_le _ _

/-- C1: for every account, the balance operation returns exactly the sum of
the amounts of all ledger entries belonging to that account (equivalently,
of the full history read), returns zero for an account with no entries, and
this is preserved by every append: a successful `create_transaction` (the
single append path used by the earn/spend/redeem routes and by the
reconciler's handlers) shifts the balance by exactly the appended amount. -/
theorem C1_balance_is_ledger_sum (db : LedgerDB) (uid : Nat) :
    calculate_balance_from_ledger db uid =
      ((get_transaction_history db uid db.entries.length 0).map (fun e => e.amount)).sum
    ∧ (db.entries.filter (fun e => e.user_id == uid) = [] →
        calculate_balance_from_ledger db uid = 0)
    ∧ (∀ u2 amt r sr cat m txid now e db2,
        create_transaction db u2 amt r sr cat m txid now = .ok (e, db2) →
        calculate_balance_from_ledger db2 uid =
          calculate_balance_from_ledger db uid + (if u2 = uid then amt else 0)) := by
  refine ⟨?_, ?_, ?_⟩
  · rw [history_all]
    have hp := (List.perm_insertionSort histDesc
      (db.entries.filter (fun e => e.user_id == uid))).map (fun e => e.amount)
    exact hp.sum_eq.symm
  · intro h
    unfold calculate_balance_from_ledger
    rw [h]
    rfl
  · intro u2 amt r sr cat m txid now e db2 h
    obtain ⟨he, hdb, _, _⟩ := create_transaction_ok h
    subst hdb
    rw [balance_append_one]
    subst he
    rfl

/-- Witness for C1: the empty account has balance `0`, and appending an
earn of `10.00` moves the balance by exactly that amount. -/
theorem C1_balance_is_ledger_sum_witness :
    ((⟨[]⟩ : LedgerDB).entries.filter (fun e => e.user_id == 7) = []) ∧
    calculate_balance_from_ledger ⟨[]⟩ 7 = 0 ∧
    calculate_balance_from_ledger ⟨[⟨1, 7, 1000, "earn", none, none, none, 2⟩]⟩ 7 =
      calculate_balance_from_ledger ⟨[]⟩ 7 + (if 7 = 7 then (1000 : Int) else 0) := by
  refine ⟨by decide, (C1_balance_is_ledger_sum ⟨[]⟩ 7).2.1 (by decide), ?_⟩
  exact (C1_balance_is_ledger_sum ⟨[]⟩ 7).2.2 7 1000 "earn" none none none 1 2
    ⟨1, 7, 1000, "earn", none, none, none, 2⟩
    ⟨[⟨1, 7, 1000, "earn", none, none, none, 2⟩]⟩ rfl

/-- C2 (code bug): the debit append path performs no balance validation at
all.  A `payment_intent.succeeded` settlement of $5.00 against an account
with no entries is accepted by the reconciler, which appends the `-5.00`
spend entry and reports success, leaving the account's balance at `-5.00`,
i.e. negative — contradicting the claim that every debit append atomically
enforces a non-negative resulting balance. -/
theorem C2_debit_append_unvalidated :
    handle_stripe_webhook ⟨⟨[]⟩, [], []⟩
        ⟨"evt_1", "payment_intent.succeeded", ⟨"pi_1", 500, some 1, none⟩⟩ 10 3 =
      .ok ({ status := "success", event_id := "evt_1" },
           ⟨⟨[⟨10, 1, -500, "spend", some "pi_1", none,
               some "payment_intent.succeeded", 3⟩]⟩, [], ["evt_1"]⟩)
    ∧ calculate_balance_from_ledger
        ⟨[⟨10, 1, -500, "spend", some "pi_1", none,
           some "payment_intent.succeeded", 3⟩]⟩ 1 = -500
    ∧ (-500 : Int) < 0 := by
  exact ⟨rfl, by decide, by decide⟩

lemma handlePaymentSucceeded_state {s : DBState} {ev : StripeEvent}
    {txid now : Nat} {s2 : DBState}
    (h : handlePaymentSucceeded s ev txid now = .ok s2) :
    s2.processed_events = s.processed_events ∧
    (s2.ledger.entries = s.ledger.entries ∨
      ∃ e, s2.ledger.entries = s.ledger.entries ++ [e]) := by
  unfold handlePaymentSucceeded at h
  split at h
  · cases h
    exact ⟨rfl, Or.inl rfl⟩
  · split at h
    · exact absurd h (by simp)
    · rename_i r hr
      obtain ⟨e2, db2⟩ := r
      cases h
      obtain ⟨_, hdb, _, _⟩ := create_transaction_ok hr
      subst hdb
      exact ⟨rfl, Or.inr ⟨_, rfl⟩⟩

lemma handleTransferCreated_state {s : DBState} {ev : StripeEvent}
    {txid now : Nat} {s2 : DBState}
    (h : handleTransferCreated s ev txid now = .ok s2) :
    s2.processed_events = s.processed_events ∧
    (s2.ledger.entries = s.ledger.entries ∨
      ∃ e, s2.ledger.entries = s.ledger.entries ++ [e]) := by
  unfold handleTransferCreated at h
  split at h
  · cases h
    exact ⟨rfl, Or.inl rfl⟩
  · split at h
    · exact absurd h (by simp)
    · rename_i r hr
      obtain ⟨e2, db2⟩ := r
      cases h
      obtain ⟨_, hdb, _, _⟩ := create_transaction_ok hr
      subst hdb
      exact ⟨rfl, Or.inr ⟨_, rfl⟩⟩

lemma webhookStep_state {s : DBState} {ev : StripeEvent} {txid now : Nat}
    {s2 : DBState}
    (h : (if ev.event_type == "payment_intent.succeeded" then
        handlePaymentSucceeded s ev txid now
      else if ev.event_type == "payment_intent.payment_failed" then
        .ok s
      else if ev.event_type == "transfer.created" then
        handleTransferCreated s ev txid now
      else if ev.event_type == "account.updated" then
        .ok s
      else
        .ok s) = .ok s2) :
    s2.processed_events = s.processed_events ∧
    (s2.ledger.entries = s.ledger.entries ∨
      ∃ e, s2.ledger.entries = s.ledger.entries ++ [e]) := by
  split at h
  · exact handlePaymentSucceeded_state h
  · split at h
    · cases h
      exact ⟨rfl, Or.inl rfl⟩
    · split at h
      · exact handleTransferCreated_state h
      · split at h
        · cases h
          exact ⟨rfl, Or.inl rfl⟩
        · cases h
          exact ⟨rfl, Or.inl rfl⟩

/-- C3 (amended): a reconciliation event identifier that is already in the
processed-event store is answered with `already_processed` and applies no
side effects (the state is returned unchanged); a successful submission
marks the identifier processed and appends at most one ledger entry.  The
reported outcomes of the N submissions are NOT identical, however: the
first reports `success` and every later one reports `already_processed`. -/
theorem C3_idempotent_dedup (s : DBState) (ev : StripeEvent) (txid now : Nat) :
    (ev.id ∈ s.processed_events →
      handle_stripe_webhook s ev txid now =
        .ok ({ status := "already_processed", event_id := ev.id }, s))
    ∧ (∀ out s2, handle_stripe_webhook s ev txid now = .ok (out, s2) →
        ev.id ∈ s2.processed_events ∧
        (s2.ledger.entries = s.ledger.entries ∨
          ∃ e, s2.ledger.entries = s.ledger.entries ++ [e]) ∧
        (ev.id ∈ s.processed_events →
          out = ⟨"already_processed", ev.id⟩ ∧ s2 = s) ∧
        (ev.id ∉ s.processed_events → out = ⟨"success", ev.id⟩)) := by
  constructor
  · intro hmem
    have hc : s.processed_events.contains ev.id = true := by simpa using hmem
    unfold handle_stripe_webhook
    rw [if_pos hc]
  · intro out s2 h
    unfold handle_stripe_webhook at h
    by_cases hmem : ev.id ∈ s.processed_events
    · have hc : s.processed_events.contains ev.id = true := by simpa using hmem
      rw [if_pos hc] at h
      simp only [Except.ok.injEq, Prod.mk.injEq] at h
      obtain ⟨hout, hs2⟩ := h
      subst hs2
      exact ⟨hmem, Or.inl rfl, fun _ => ⟨hout.symm, rfl⟩, fun hn => absurd hmem hn⟩
    · have hc : ¬(s.processed_events.contains ev.id = true) := by simpa using hmem
      rw [if_neg hc] at h
      split at h
      · exact absurd h (by simp)
      · rename_i s3 hs3
        simp only [Except.ok.injEq, Prod.mk.injEq] at h
        obtain ⟨hout, hs2⟩ := h
        obtain ⟨hproc, hledg⟩ := webhookStep_state hs3
        subst hs2
        refine ⟨List.mem_cons_self _ _, hledg, fun hm => absurd hm hmem, fun _ => hout.symm⟩

/-- C3 counterexample: delivering the same event identifier twice does NOT
return identical reported outcomes — the first submission reports status
`success`, the duplicate reports status `already_processed`. -/
theorem C3_counterexample_outcomes_differ :
    handle_stripe_webhook ⟨⟨[]⟩, [], []⟩
        ⟨"evt_2", "account.updated", ⟨"acct_1", 0, none, none⟩⟩ 1 1 =
      .ok ({ status := "success", event_id := "evt_2" }, ⟨⟨[]⟩, [], ["evt_2"]⟩)
    ∧ handle_stripe_webhook ⟨⟨[]⟩, [], ["evt_2"]⟩
        ⟨"evt_2", "account.updated", ⟨"acct_1", 0, none, none⟩⟩ 2 2 =
      .ok ({ status := "already_processed", event_id := "evt_2" }, ⟨⟨[]⟩, [], ["evt_2"]⟩)
    ∧ ({ status := "success", event_id := "evt_2" } : WebhookOutcome) ≠
      { status := "already_processed", event_id := "evt_2" } := by
  exact ⟨rfl, rfl, by decide⟩

/-- Witness for C3: a duplicate of an already-recorded identifier is a
no-op answered with `already_processed`, and a processed submission leaves
the identifier marked and the ledger unchanged for a no-effect event. -/
theorem C3_idempotent_dedup_witness :
    ("evt_9" ∈ (["evt_9"] : List String)) ∧
    handle_stripe_webhook ⟨⟨[]⟩, [], ["evt_9"]⟩
        ⟨"evt_9", "account.updated", ⟨"acct_1", 0, none, none⟩⟩ 1 1 =
      .ok ({ status := "already_processed", event_id := "evt_9" }, ⟨⟨[]⟩, [], ["evt_9"]⟩) := by
  refine ⟨by decide, ?_⟩
  exact (C3_idempotent_dedup ⟨⟨[]⟩, [], ["evt_9"]⟩
    ⟨"evt_9", "account.updated", ⟨"acct_1", 0, none, none⟩⟩ 1 1).1 (by decide)

/-! ## Structured view of the policy loop -/

/-- The per-item processing of the loop, separated from the accumulators:
builds each `Item` in input order, threading the classifier cache. -/
def processItems : List ItemData → Cache → List ProcessedItem × Cache
  | [], cache => ([], cache)
  | d :: rest, cache =>
    let r := mkItem d cache
    let r2 := processItems rest r.snd
    (r.fst :: r2.fst, r2.snd)

/-- Sum of `price * quantity` over exactly the items flagged eligible. -/
def eligAmount (l : List ProcessedItem) : Int :=
  (l.map (fun it => if it.is_eligible then it.price * it.quantity else 0)).sum

lemma policyLoop_eq (items : List ItemData) :
    ∀ (p : List ProcessedItem) (a : Int) (den : List ProcessedItem) (c : Cache),
    policyLoop items p a den c =
      (p ++ (processItems items c).fst,
       a + eligAmount (processItems items c).fst,
       den ++ (processItems items c).fst.filter (fun it => !it.is_eligible),
       (processItems items c).snd) := by
  induction items with
  | nil =>
    intro p a den c
    simp [policyLoop, processItems, eligAmount]
  | cons d rest ih =>
    intro p a den c
    simp only [policyLoop, processItems]
    rw [ih]
    by_cases he : (mkItem d c).fst.is_eligible
    · simp [he, eligAmount, List.filter_cons, add_assoc]
    · simp [he, eligAmount, List.filter_cons]

lemma check_eq (items : List ItemData) (cache : Cache) :
    check_transaction_eligibility items cache =
      ((if ((processItems items cache).fst.filter (fun it => !it.is_eligible)).length = 0
          then PolicyDecision.approve
        else if ((processItems items cache).fst.filter (fun it => !it.is_eligible)).length =
            (processItems items cache).fst.length then PolicyDecision.deny
        else PolicyDecision.partialApproval),
       (processItems items cache).fst,
       eligAmount (processItems items cache).fst,
       (processItems items cache).snd) := by
  unfold check_transaction_eligibility
  rw [policyLoop_eq]
  simp

/-- C4: policy evaluation returns exactly one of approve/deny/partial:
approve iff no returned item is flagged ineligible, deny iff the (non-empty)
returned breakdown is entirely ineligible, partial iff the breakdown is
mixed; the approved amount equals the sum of price×quantity over exactly
the items flagged eligible in the returned breakdown; and the empty item
list yields decision approve with approved amount zero. -/
theorem C4_policy_decision_totality (items : List ItemData) (cache : Cache) :
    ((check_transaction_eligibility items cache).fst = PolicyDecision.approve ↔
      ∀ it ∈ (check_transaction_eligibility items cache).snd.fst, it.is_eligible = true)
    ∧ ((check_transaction_eligibility items cache).fst = PolicyDecision.deny ↔
      ((check_transaction_eligibility items cache).snd.fst ≠ [] ∧
        ∀ it ∈ (check_transaction_eligibility items cache).snd.fst, it.is_eligible = false))
    ∧ ((check_transaction_eligibility items cache).fst = PolicyDecision.partialApproval ↔
      ((∃ it ∈ (check_transaction_eligibility items cache).snd.fst, it.is_eligible = true) ∧
       (∃ it ∈ (check_transaction_eligibility items cache).snd.fst, it.is_eligible = false)))
    ∧ (check_transaction_eligibility items cache).snd.snd.fst =
        eligAmount (check_transaction_eligibility items cache).snd.fst
    ∧ (items = [] →
        check_transaction_eligibility items cache = (PolicyDecision.approve, [], 0, cache)) := by
  have hfst : (check_transaction_eligibility items cache).fst =
      (if ((processItems items cache).fst.filter (fun it => !it.is_eligible)).length = 0
        then PolicyDecision.approve
      else if ((processItems items cache).fst.filter (fun it => !it.is_eligible)).length =
          (processItems items cache).fst.length then PolicyDecision.deny
      else PolicyDecision.partialApproval) := by rw [check_eq]
  have hsnd : (check_transaction_eligibility items cache).snd.fst =
      (processItems items cache).fst := by rw [check_eq]
  have hamt : (check_transaction_eligibility items cache).snd.snd.fst =
      eligAmount (processItems items cache).fst := by rw [check_eq]
  have hD0 : ((processItems items cache).fst.filter (fun it => !it.is_eligible)).length = 0 ↔
      ∀ it ∈ (processItems items cache).fst, it.is_eligible = true := by
    rw [List.length_eq_zero, List.filter_eq_nil]
    simp
  have hDP : ((processItems items cache).fst.filter (fun it => !it.is_eligible)).length =
        (processItems items cache).fst.length ↔
      ∀ it ∈ (processItems items cache).fst, it.is_eligible = false := by
    rw [← List.countP_eq_length_filter, List.countP_eq_length]
    simp
  have hex1 : ¬(((processItems items cache).fst.filter (fun it => !it.is_eligible)).length =
        (processItems items cache).fst.length) →
      ∃ it ∈ (processItems items cache).fst, it.is_eligible = true := by
    intro h1
    by_contra hno
    push_neg at hno
    exact h1 (hDP.mpr (fun it hit => by simpa using hno it hit))
  have hex0 : ¬(((processItems items cache).fst.filter (fun it => !it.is_eligible)).length = 0) →
      ∃ it ∈ (processItems items cache).fst, it.is_eligible = false := by
    intro h0
    by_contra hno
    push_neg at hno
    exact h0 (hD0.mpr (fun it hit => by simpa using hno it hit))
  refine ⟨?_, ?_, ?_, ?_, ?_⟩
  · rw [hfst, hsnd]
    split_ifs with h0 h1
    · exact iff_of_true rfl (hD0.mp h0)
    · exact iff_of_false (by simp) (fun hall => h0 (hD0.mpr hall))
    · exact iff_of_false (by simp) (fun hall => h0 (hD0.mpr hall))
  · rw [hfst, hsnd]
    split_ifs with h0 h1
    · refine iff_of_false (by simp) ?_
      rintro ⟨hne, hall⟩
      rcases List.exists_mem_of_ne_nil _ hne with ⟨it, hit⟩
      have := hD0.mp h0 it hit
      rw [hall it hit] at this
      exact Bool.false_ne_true this
    · refine iff_of_true rfl ⟨?_, hDP.mp h1⟩
      intro hnil
      rw [hnil] at h1 h0
      simp at h1 h0
    · exact iff_of_false (by simp) (fun hh => h1 (hDP.mpr hh.2))
  · rw [hfst, hsnd]
    split_ifs with h0 h1
    · refine iff_of_false (by simp) ?_
      rintro ⟨-, it, hit, hfalse⟩
      have := hD0.mp h0 it hit
      rw [hfalse] at this
      exact Bool.false_ne_true this
    · refine iff_of_false (by simp) ?_
      rintro ⟨⟨it, hit, htrue⟩, -⟩
      have := hDP.mp h1 it hit
      rw [htrue] at this
      exact Bool.true_eq_false ▸ (by simp [this])
    · exact iff_of_true rfl ⟨hex1 h1, hex0 h0⟩
  · rw [hamt, hsnd]
  · intro h
    subst h
    rfl

/-- Witness for C4 at the concrete empty basket: decision approve with
approved amount zero. -/
theorem C4_policy_decision_totality_witness :
    check_transaction_eligibility [] [] = (PolicyDecision.approve, [], 0, []) := by
  exact (C4_policy_decision_totality [] []).2.2.2.2 rfl

/-- C7: `is_eligible` is true exactly on the allow-set, false on every
member of the deny-set (the two sets are disjoint), and false on every
other value including the sentinel `unknown` — default-deny. -/
theorem C7_default_deny (category : String) :
    (is_eligible category = true ↔ category ∈ ALLOWED_CATEGORIES)
    ∧ (category ∈ DISALLOWED_CATEGORIES → is_eligible category = false)
    ∧ is_eligible "unknown" = false := by
  have hdisj : ∀ c ∈ DISALLOWED_CATEGORIES, c ∉ ALLOWED_CATEGORIES := by decide
  refine ⟨?_, ?_, by decide⟩
  · constructor
    · intro h
      cases hc : ALLOWED_CATEGORIES.contains category
      · unfold is_eligible at h
        rw [hc] at h
        simp at h
      · simpa using hc
    · intro hmem
      unfold is_eligible
      rw [if_pos (by simpa using hmem)]
  · intro hmem
    have h1 : ALLOWED_CATEGORIES.contains category = false := by
      simpa using hdisj category hmem
    unfold is_eligible
    rw [h1]
    simp

/-- Witness for C7: the deny-set member `alcohol` is ineligible. -/
theorem C7_default_deny_witness :
    ("alcohol" ∈ DISALLOWED_CATEGORIES) ∧ is_eligible "alcohol" = false :=
  ⟨by decide, (C7_default_deny "alcohol").2.1 (by decide)⟩

/-! ## Spec-side description of the classifier's resolution order (C6) -/

def knownCategoryUniverse : List String := ALLOWED_CATEGORIES ++ DISALLOWED_CATEGORIES

def patternsFor (cat : String) : List String := (UPC_PATTERNS.lookup cat).getD []

/-- First-match keyword test in the claim's priority order: alcohol first,
then tobacco, then the hot/prepared-food indicators. -/
def specFirstMatch (lowered : String) : Option String :=
  if (patternsFor "alcohol").any (fun p => strContainsSub lowered p) then some "alcohol"
  else if (patternsFor "tobacco").any (fun p => strContainsSub lowered p) then some "tobacco"
  else if (patternsFor "hot_food").any (fun p => strContainsSub lowered p) then some "hot_food"
  else none

/-- The claim's resolution cascade, written from its words: (1) a declared
category inside the known universe is returned unchanged; (2) otherwise a
cached classification for the supplied identifier; (3) otherwise the
lowercased free-text name is tested alcohol → tobacco → hot-food, the first
match returned and cached under the identifier when one was supplied;
(4) otherwise the sentinel `unknown`. -/
def classifySpec (upc sku product_name declared : Option String) (cache : Cache) :
    String × Cache :=
  if isTruthy declared && knownCategoryUniverse.contains (optVal declared) then
    (optVal declared, cache)
  else
    match (if isTruthy (if isTruthy upc then upc else sku) then
        cache.lookup (optVal (if isTruthy upc then upc else sku)) else none) with
    | some cached => (cached, cache)
    | none =>
      match (if isTruthy product_name then
          specFirstMatch (strLower (optVal product_name)) else none) with
      | some cat =>
        (cat, if isTruthy (if isTruthy upc then upc else sku) then
            (optVal (if isTruthy upc then upc else sku), cat) :: cache else cache)
      | none => ("unknown", cache)

lemma matchPatterns_upc (lowered : String) :
    matchPatterns lowered UPC_PATTERNS = specFirstMatch lowered := rfl

/-- C6: the classifier resolves in the claimed fixed order — declared
category in the known universe first, then the identifier cache, then the
lowercased-name keyword patterns in priority order alcohol, tobacco,
hot/prepared food (caching the match under the supplied identifier), and
finally the sentinel `unknown`; both the returned category and the updated
cache agree with that description. -/
theorem C6_classifier_resolution_order (upc sku product_name declared : Option String)
    (cache : Cache) :
    classify_item upc sku product_name declared cache =
      classifySpec upc sku product_name declared cache := by
  unfold classify_item classifySpec
  simp only [knownCategoryUniverse, matchPatterns_upc]
  split
  · rfl
  · split
    · rfl
    · cases ht : isTruthy product_name
      · simp [ht]
      · simp [ht]

/-! ## Cache invariants (C10) and order independence (C8) -/

/-- The keys of the disallowed pattern table. -/
def PATTERN_KEYS : List String := UPC_PATTERNS.map Prod.fst

lemma matchPatterns_mem {lowered : String} {ps : List (String × List String)}
    {c : String} (h : matchPatterns lowered ps = some c) : c ∈ ps.map Prod.fst := by
  induction ps with
  | nil => simp [matchPatterns] at h
  | cons hd tl ih =>
    obtain ⟨cat, pats⟩ := hd
    unfold matchPatterns at h
    split at h
    · cases h
      simp
    · simp only [List.map_cons]
      exact List.mem_cons_of_mem _ (ih h)

lemma lookup_cons (k a b : String) (es : Cache) :
    List.lookup k ((a, b) :: es) = if (k == a) = true then some b else es.lookup k := by
  cases h : k == a <;> simp [List.lookup, h]

lemma lookup_mem_values {c : Cache} {k v : String} (h : c.lookup k = some v) :
    ∃ a, (a, v) ∈ c := by
  induction c with
  | nil => simp [List.lookup] at h
  | cons hd tl ih =>
    obtain ⟨a, b⟩ := hd
    rw [lookup_cons] at h
    by_cases hk : (k == a) = true
    · rw [if_pos hk] at h
      cases h
      exact ⟨a, List.mem_cons_self _ _⟩
    · rw [if_neg hk] at h
      obtain ⟨a2, hm⟩ := ih h
      exact ⟨a2, List.mem_cons_of_mem _ hm⟩

/-- Well-formedness of the classifier cache: every stored value is a key of
the disallowed pattern table. -/
def cacheWF (c : Cache) : Bool := c.all (fun kv => PATTERN_KEYS.contains kv.snd)

lemma cacheWF_lookup {c : Cache} (hwf : cacheWF c = true) {k v : String}
    (h : c.lookup k = some v) : v ∈ PATTERN_KEYS := by
  obtain ⟨a, hm⟩ := lookup_mem_values h
  have := (List.all_eq_true.mp hwf) _ hm
  simpa using this

lemma pattern_keys_ineligible : ∀ k ∈ PATTERN_KEYS, k ≠ "unknown" ∧ is_eligible k = false := by
  decide

/-- The cache side of one classifier call: either untouched, or extended by
one binding whose key was absent and whose value is a pattern-table key. -/
lemma classify_item_snd (upc sku product_name category : Option String) (cache : Cache) :
    (classify_item upc sku product_name category cache).snd = cache ∨
    ∃ id k, (classify_item upc sku product_name category cache).snd = (id, k) :: cache ∧
      k ∈ PATTERN_KEYS ∧ cache.lookup id = none := by
  by_cases hd : isTruthy category = true ∧
      (optVal category ∈ ALLOWED_CATEGORIES ∨ optVal category ∈ DISALLOWED_CATEGORIES)
  · left
    simp [classify_item, hd]
  · by_cases hid : isTruthy (if isTruthy upc then upc else sku) = true
    · cases hl : cache.lookup (optVal (if isTruthy upc then upc else sku)) with
      | some v =>
        left
        simp [classify_item, hd, hid, hl]
      | none =>
        by_cases hn : isTruthy product_name = true
        · cases hm : matchPatterns (strLower (optVal product_name)) UPC_PATTERNS with
          | some cat =>
            right
            refine ⟨optVal (if isTruthy upc then upc else sku), cat, ?_, ?_, hl⟩
            · simp [classify_item, hd, hid, hl, hn, hm]
            · simpa [PATTERN_KEYS] using matchPatterns_mem hm
          | none =>
            left
            simp [classify_item, hd, hid, hl, hn, hm]
        · left
          simp [classify_item, hd, hid, hl, hn]
    · by_cases hn : isTruthy product_name = true
      · cases hm : matchPatterns (strLower (optVal product_name)) UPC_PATTERNS with
        | some cat =>
          left
          simp [classify_item, hd, hid, hn, hm]
        | none =>
          left
          simp [classify_item, hd, hid, hn, hm]
      · left
        simp [classify_item, hd, hid, hn]

/-- `c1` evolves from `c0` by classifier writes: existing bindings are
preserved, and every new binding stores a pattern-table key. -/
def cacheExt (c0 c1 : Cache) : Prop :=
  (∀ k v, c0.lookup k = some v → c1.lookup k = some v) ∧
  (∀ k v, c1.lookup k = some v → c0.lookup k = some v ∨ v ∈ PATTERN_KEYS)

lemma cacheExt_refl (c : Cache) : cacheExt c c :=
  ⟨fun _ _ h => h, fun _ _ h => Or.inl h⟩

lemma cacheExt_cons {c0 c : Cache} (h : cacheExt c0 c) {id k : String}
    (hnone : c.lookup id = none) (hk : k ∈ PATTERN_KEYS) :
    cacheExt c0 ((id, k) :: c) := by
  constructor
  · intro k2 v2 h2
    have hc := h.1 k2 v2 h2
    rw [lookup_cons]
    by_cases he : (k2 == id) = true
    · exfalso
      have hkk : k2 = id := by simpa using he
      rw [hkk, hnone] at hc
      cases hc
    · rw [if_neg he]
      exact hc
  · intro k2 v2 h2
    rw [lookup_cons] at h2
    by_cases he : (k2 == id) = true
    · rw [if_pos he] at h2
      cases h2
      exact Or.inr hk
    · rw [if_neg he] at h2
      exact h.2 k2 v2 h2

lemma classify_item_cacheExt {c0 c : Cache} (h : cacheExt c0 c)
    (upc sku product_name category : Option String) :
    cacheExt c0 (classify_item upc sku product_name category c).snd := by
  rcases classify_item_snd upc sku product_name category c with heq | ⟨id, k, heq, hk, hnone⟩
  · rw [heq]
    exact h
  · rw [heq]
    exact cacheExt_cons h hnone hk

/-- Eligibility of one item as a pure function of the item and the cache
state at the start of the evaluation: a truthy declared category decides it
directly; otherwise only an initial-cache hit can make it eligible — every
other path (later-cache hit, pattern match, `unknown`) is ineligible. -/
def itemEligPure (d : ItemData) (c0 : Cache) : Bool :=
  if isTruthy d.category then is_eligible (optVal d.category)
  else
    match (if isTruthy (if isTruthy d.upc then d.upc else d.sku) then
        c0.lookup (optVal (if isTruthy d.upc then d.upc else d.sku)) else none) with
    | some v => is_eligible v
    | none => false

lemma classify_pattern_fst_ineligible (product_name : Option String) (upc sku : Option String)
    (cache : Cache) :
    is_eligible ((if isTruthy product_name then
        (match matchPatterns (strLower (optVal product_name)) UPC_PATTERNS with
         | some cat =>
           ((cat : String), if isTruthy (if isTruthy upc then upc else sku) then
               (optVal (if isTruthy upc then upc else sku), cat) :: cache else cache)
         | none => ("unknown", cache))
      else ("unknown", cache)).fst) = false := by
  by_cases ht : isTruthy product_name = true
  · rw [if_pos ht]
    cases hm : matchPatterns (strLower (optVal product_name)) UPC_PATTERNS with
    | some cat =>
      have hk : cat ∈ PATTERN_KEYS := by simpa [PATTERN_KEYS] using matchPatterns_mem hm
      exact (pattern_keys_ineligible cat hk).2
    | none => exact (by decide : is_eligible "unknown" = false)
  · rw [if_neg ht]
    exact (by decide : is_eligible "unknown" = false)

lemma isTruthy_none : isTruthy none = false := rfl

lemma classify_item_fst_cases (upc sku product_name : Option String) (c : Cache) :
    (∃ v, (if isTruthy (if isTruthy upc then upc else sku) then
        c.lookup (optVal (if isTruthy upc then upc else sku)) else none) = some v ∧
      (classify_item upc sku product_name none c).fst = v) ∨
    ((if isTruthy (if isTruthy upc then upc else sku) then
        c.lookup (optVal (if isTruthy upc then upc else sku)) else none) = none ∧
      ((classify_item upc sku product_name none c).fst ∈ PATTERN_KEYS ∨
       (classify_item upc sku product_name none c).fst = "unknown")) := by
  by_cases hid : isTruthy (if isTruthy upc then upc else sku) = true
  · cases hl : c.lookup (optVal (if isTruthy upc then upc else sku)) with
    | some v =>
      left
      refine ⟨v, ?_, ?_⟩
      · rw [if_pos hid]
      · simp [classify_item, isTruthy_none, hid, hl]
    | none =>
      right
      refine ⟨?_, ?_⟩
      · rw [if_pos hid]
      · by_cases hn : isTruthy product_name = true
        · cases hm : matchPatterns (strLower (optVal product_name)) UPC_PATTERNS with
          | some cat =>
            left
            have hc : (classify_item upc sku product_name none c).fst = cat := by
              simp [classify_item, isTruthy_none, hid, hl, hn, hm]
            rw [hc]
            simpa [PATTERN_KEYS] using matchPatterns_mem hm
          | none =>
            right
            simp [classify_item, isTruthy_none, hid, hl, hn, hm]
        · right
          simp [classify_item, isTruthy_none, hid, hl, hn]
  · right
    refine ⟨?_, ?_⟩
    · rw [if_neg hid]
    · by_cases hn : isTruthy product_name = true
      · cases hm : matchPatterns (strLower (optVal product_name)) UPC_PATTERNS with
        | some cat =>
          left
          have hc : (classify_item upc sku product_name none c).fst = cat := by
            simp [classify_item, isTruthy_none, hid, hn, hm]
          rw [hc]
          simpa [PATTERN_KEYS] using matchPatterns_mem hm
        | none =>
          right
          simp [classify_item, isTruthy_none, hid, hn, hm]
      · right
        simp [classify_item, isTruthy_none, hid, hn]

lemma classify_fst_elig {c0 c : Cache} (h : cacheExt c0 c)
    (upc sku product_name : Option String) :
    is_eligible ((classify_item upc sku product_name none c).fst) =
      (match (if isTruthy (if isTruthy upc then upc else sku) then
          c0.lookup (optVal (if isTruthy upc then upc else sku)) else none) with
       | some v => is_eligible v
       | none => false) := by
  rcases classify_item_fst_cases upc sku product_name c with ⟨v, hscrut, hfst⟩ | ⟨hscrut, hfst⟩
  · rw [hfst]
    by_cases hid : isTruthy (if isTruthy upc then upc else sku) = true
    · rw [if_pos hid] at hscrut ⊢
      cases hl0 : c0.lookup (optVal (if isTruthy upc then upc else sku)) with
      | some v0 =>
        have hcc := h.1 _ _ hl0
        rw [hscrut] at hcc
        cases hcc
        rfl
      | none =>
        rcases h.2 _ _ hscrut with hc0 | hkeys
        · rw [hl0] at hc0
          cases hc0
        · exact (pattern_keys_ineligible _ hkeys).2
    · rw [if_neg hid] at hscrut
      cases hscrut
  · by_cases hid : isTruthy (if isTruthy upc then upc else sku) = true
    · rw [if_pos hid] at hscrut ⊢
      cases hl0 : c0.lookup (optVal (if isTruthy upc then upc else sku)) with
      | some v0 =>
        have hcc := h.1 _ _ hl0
        rw [hscrut] at hcc
        cases hcc
      | none =>
        rcases hfst with hk | hu
        · exact (pattern_keys_ineligible _ hk).2
        · rw [hu]
          exact (by decide : is_eligible "unknown" = false)
    · rw [if_neg hid]
      rcases hfst with hk | hu
      · exact (pattern_keys_ineligible _ hk).2
      · rw [hu]
        exact (by decide : is_eligible "unknown" = false)

lemma mkItem_cacheExt {c0 c : Cache} (h : cacheExt c0 c) (d : ItemData) :
    cacheExt c0 (mkItem d c).snd := by
  by_cases ht : isTruthy d.category = true
  · have hs : (mkItem d c).snd = c := by simp [mkItem, ht]
    rw [hs]
    exact h
  · have hs : (mkItem d c).snd =
        (classify_item d.upc d.sku d.product_name none c).snd := by simp [mkItem, ht]
    rw [hs]
    exact classify_item_cacheExt h _ _ _ _

lemma mkItem_elig {c0 c : Cache} (h : cacheExt c0 c) (d : ItemData) :
    (mkItem d c).fst.is_eligible = itemEligPure d c0 := by
  by_cases ht : isTruthy d.category = true
  · have hs : (mkItem d c).fst.is_eligible = is_eligible (optVal d.category) := by
      simp [mkItem, ht]
    rw [hs, itemEligPure, if_pos ht]
  · have hs : (mkItem d c).fst.is_eligible =
        is_eligible ((classify_item d.upc d.sku d.product_name none c).fst) := by
      simp [mkItem, ht]
    rw [hs, itemEligPure, if_neg ht]
    exact classify_fst_elig h d.upc d.sku d.product_name

lemma processItems_flags (items : List ItemData) :
    ∀ {c0 c : Cache}, cacheExt c0 c →
    (processItems items c).fst.map (fun it => (it.is_eligible, it.price, it.quantity)) =
      items.map (fun d => (itemEligPure d c0, d.price, d.quantity)) := by
  induction items with
  | nil =>
    intro c0 c h
    rfl
  | cons d rest ih =>
    intro c0 c h
    simp only [processItems, List.map_cons]
    rw [mkItem_elig h d]
    exact congrArg _ (ih (mkItem_cacheExt h d))

lemma processItems_src (items : List ItemData) :
    ∀ c : Cache,
    (processItems items c).fst.map
        (fun it => (it.upc, it.sku, it.product_name, it.price, it.quantity)) =
      items.map (fun d => (d.upc, d.sku, d.product_name, d.price, d.quantity)) := by
  induction items with
  | nil =>
    intro c
    rfl
  | cons d rest ih =>
    intro c
    simp only [processItems, List.map_cons]
    exact congrArg _ (ih _)

lemma eligAmount_pure {items : List ItemData} {c0 c : Cache} (h : cacheExt c0 c) :
    eligAmount (processItems items c).fst =
      (items.map (fun d => if itemEligPure d c0 then d.price * d.quantity else 0)).sum := by
  have hc := congrArg (fun l => (l.map (fun t : Bool × Int × Int =>
      if t.fst then t.snd.fst * t.snd.snd else 0)).sum) (processItems_flags items h)
  simpa [eligAmount, List.map_map, Function.comp] using hc

lemma deniedCount_pure {items : List ItemData} {c0 c : Cache} (h : cacheExt c0 c) :
    (processItems items c).fst.countP (fun it => !it.is_eligible) =
      items.countP (fun d => !itemEligPure d c0) := by
  have hc := congrArg (fun l => l.countP (fun t : Bool × Int × Int => !t.fst))
    (processItems_flags items h)
  simpa [List.countP_map, Function.comp] using hc

lemma length_processItems (items : List ItemData) (c : Cache) :
    (processItems items c).fst.length = items.length := by
  have hc := congrArg List.length (processItems_src items c)
  simpa using hc

/-- C8: policy evaluation from the same classifier cache state is
order-independent in its decision and approved amount — for any permutation
of the item list both agree — while the returned per-item breakdown
preserves the input order of the items (the i-th result carries the i-th
input's identifiers, name, price and quantity). -/
theorem C8_policy_order_independence (items1 items2 : List ItemData) (cache : Cache)
    (hperm : items1.Perm items2) :
    (check_transaction_eligibility items1 cache).fst =
      (check_transaction_eligibility items2 cache).fst
    ∧ (check_transaction_eligibility items1 cache).snd.snd.fst =
      (check_transaction_eligibility items2 cache).snd.snd.fst
    ∧ (check_transaction_eligibility items1 cache).snd.fst.map
        (fun it => (it.upc, it.sku, it.product_name, it.price, it.quantity)) =
      items1.map (fun d => (d.upc, d.sku, d.product_name, d.price, d.quantity)) := by
  have hrefl := cacheExt_refl cache
  have hcount12 : ((processItems items1 cache).fst.filter (fun it => !it.is_eligible)).length =
      ((processItems items2 cache).fst.filter (fun it => !it.is_eligible)).length := by
    rw [← List.countP_eq_length_filter, ← List.countP_eq_length_filter,
      deniedCount_pure hrefl, deniedCount_pure hrefl, hperm.countP_eq]
  have hlen12 : (processItems items1 cache).fst.length =
      (processItems items2 cache).fst.length := by
    rw [length_processItems, length_processItems, hperm.length_eq]
  refine ⟨?_, ?_, ?_⟩
  · have h1 : (check_transaction_eligibility items1 cache).fst =
        (if ((processItems items1 cache).fst.filter (fun it => !it.is_eligible)).length = 0
          then PolicyDecision.approve
        else if ((processItems items1 cache).fst.filter (fun it => !it.is_eligible)).length =
            (processItems items1 cache).fst.length then PolicyDecision.deny
        else PolicyDecision.partialApproval) := by rw [check_eq]
    have h2 : (check_transaction_eligibility items2 cache).fst =
        (if ((processItems items2 cache).fst.filter (fun it => !it.is_eligible)).length = 0
          then PolicyDecision.approve
        else if ((processItems items2 cache).fst.filter (fun it => !it.is_eligible)).length =
            (processItems items2 cache).fst.length then PolicyDecision.deny
        else PolicyDecision.partialApproval) := by rw [check_eq]
    rw [h1, h2, hcount12, hlen12]
  · have h1 : (check_transaction_eligibility items1 cache).snd.snd.fst =
        eligAmount (processItems items1 cache).fst := by rw [check_eq]
    have h2 : (check_transaction_eligibility items2 cache).snd.snd.fst =
        eligAmount (processItems items2 cache).fst := by rw [check_eq]
    rw [h1, h2, eligAmount_pure hrefl, eligAmount_pure hrefl]
    exact (hperm.map _).sum_eq
  · have h1 : (check_transaction_eligibility items1 cache).snd.fst =
        (processItems items1 cache).fst := by rw [check_eq]
    rw [h1]
    exact processItems_src items1 cache

/-- Witness for C8: swapping a two-item basket leaves decision and approved
amount unchanged. -/
theorem C8_policy_order_independence_witness :
    ([⟨none, none, none, some "dairy", 350, 1⟩,
      ⟨none, none, none, some "alcohol", 500, 1⟩] : List ItemData).Perm
      [⟨none, none, none, some "alcohol", 500, 1⟩,
       ⟨none, none, none, some "dairy", 350, 1⟩]
    ∧ (check_transaction_eligibility
        [⟨none, none, none, some "dairy", 350, 1⟩,
         ⟨none, none, none, some "alcohol", 500, 1⟩] []).fst =
      (check_transaction_eligibility
        [⟨none, none, none, some "alcohol", 500, 1⟩,
         ⟨none, none, none, some "dairy", 350, 1⟩] []).fst
    ∧ (check_transaction_eligibility
        [⟨none, none, none, some "dairy", 350, 1⟩,
         ⟨none, none, none, some "alcohol", 500, 1⟩] []).snd.snd.fst =
      (check_transaction_eligibility
        [⟨none, none, none, some "alcohol", 500, 1⟩,
         ⟨none, none, none, some "dairy", 350, 1⟩] []).snd.snd.fst := by
  have hp : ([⟨none, none, none, some "dairy", 350, 1⟩,
      ⟨none, none, none, some "alcohol", 500, 1⟩] : List ItemData).Perm
      [⟨none, none, none, some "alcohol", 500, 1⟩,
       ⟨none, none, none, some "dairy", 350, 1⟩] := List.Perm.swap _ _ _
  exact ⟨hp, (C8_policy_order_independence _ _ [] hp).1,
    (C8_policy_order_independence _ _ [] hp).2.1⟩

/-- C10: the classifier cache only ever stores keys of the disallowed
pattern table — a call either leaves the cache unchanged or adds one
binding whose value is a pattern key (never `unknown`); under that
invariant every cache hit yields an ineligible category, and an item
classified without a declared category can never come out eligible. -/
theorem C10_cache_stores_only_disallowed (upc sku product_name category : Option String)
    (c : Cache) :
    (cacheWF c = true → cacheWF (classify_item upc sku product_name category c).snd = true)
    ∧ ((classify_item upc sku product_name category c).snd = c ∨
       ∃ id k, (classify_item upc sku product_name category c).snd = (id, k) :: c ∧
         k ∈ PATTERN_KEYS ∧ k ≠ "unknown" ∧ is_eligible k = false)
    ∧ (cacheWF c = true → ∀ k v, c.lookup k = some v → is_eligible v = false)
    ∧ (cacheWF c = true → category = none →
        is_eligible (classify_item upc sku product_name category c).fst = false) := by
  refine ⟨?_, ?_, ?_, ?_⟩
  · intro hwf
    rcases classify_item_snd upc sku product_name category c with heq | ⟨id, k, heq, hk, hnone⟩
    · rw [heq]
      exact hwf
    · rw [heq]
      have hck : PATTERN_KEYS.contains k = true := by simpa using hk
      simp only [cacheWF, List.all_cons]
      rw [hck]
      simpa [cacheWF] using hwf
  · rcases classify_item_snd upc sku product_name category c with heq | ⟨id, k, heq, hk, hnone⟩
    · exact Or.inl heq
    · exact Or.inr ⟨id, k, heq, hk,
        (pattern_keys_ineligible k hk).1, (pattern_keys_ineligible k hk).2⟩
  · intro hwf k v hl
    exact (pattern_keys_ineligible v (cacheWF_lookup hwf hl)).2
  · intro hwf hcat
    subst hcat
    rw [classify_fst_elig (cacheExt_refl c) upc sku product_name]
    by_cases hid : isTruthy (if isTruthy upc then upc else sku) = true
    · rw [if_pos hid]
      cases hl : c.lookup (optVal (if isTruthy upc then upc else sku)) with
      | some v => exact (pattern_keys_ineligible v (cacheWF_lookup hwf hl)).2
      | none => rfl
    · rw [if_neg hid]

/-- Witness for C10: a well-formed cache stays well-formed across a
classifying call, and classification without a declared category is
ineligible. -/
theorem C10_cache_stores_only_disallowed_witness :
    cacheWF [("u1", "tobacco")] = true ∧
    cacheWF (classify_item (some "u2") none (some "hot dog") none
      [("u1", "tobacco")]).snd = true ∧
    is_eligible (classify_item (some "u2") none (some "hot dog") none
      [("u1", "tobacco")]).fst = false := by
  refine ⟨by decide, ?_, ?_⟩
  · exact (C10_cache_stores_only_disallowed (some "u2") none (some "hot dog") none
      [("u1", "tobacco")]).1 (by decide)
  · exact (C10_cache_stores_only_disallowed (some "u2") none (some "hot dog") none
      [("u1", "tobacco")]).2.2.2 (by decide) rfl

/-! ## C5: the partial-decision spend path -/

/-- The claim's "the debited/charged amount … may be less than the
originally requested amount": there is some run of the spend workflow that
succeeds under a partial decision and charges less than the request. -/
def spendPartialChargesLess : Prop :=
  ∃ (db : LedgerDB) (cache : Cache) (items : List ItemData) (amount : Int)
    (uid : Nat) (auth : Bool) (pid : String) (txid now : Nat)
    (res : SpendResult × LedgerDB × Cache),
    spend_rewards db cache items amount uid auth pid txid now = .ok res ∧
    res.fst.decision = PolicyDecision.partialApproval ∧
    res.fst.amount < amount

/-- C5 counterexample (negation of the claimed possibility): a spend that
proceeds under a partial decision never charges less than the requested
amount — the partial guard only lets the request through when the approved
amount already covers it, and then substitutes the (larger or equal)
approved amount. -/
theorem C5_counterexample_no_lesser_charge : ¬ spendPartialChargesLess := by
  rintro ⟨db, cache, items, amount, uid, auth, pid, txid, now, res, hok, hdec, hlt⟩
  simp only [spend_rewards] at hok
  split at hok
  · simp at hok
  · split at hok
    · simp at hok
    · split at hok
      · simp at hok
      · split at hok
        · simp at hok
        · split at hok
          · simp at hok
          · rename_i hnotless
            split at hok
            · simp at hok
            · split at hok
              · simp at hok
              · rename_i t ht
                simp only [Except.ok.injEq] at hok
                subst hok
                have hdec2 : (check_transaction_eligibility items cache).fst =
                    PolicyDecision.partialApproval := hdec
                have hlt2 : (if (check_transaction_eligibility items cache).fst =
                      PolicyDecision.partialApproval
                    then (check_transaction_eligibility items cache).snd.snd.fst
                    else amount) < amount := hlt
                rw [if_pos hdec2] at hlt2
                exact hnotless ⟨hdec2, hlt2⟩

/-- C5 (amended): in the spend workflow, when the policy decision is
partial (and the request has passed the amount/items/balance checks), the
request fails with the partially-denied error exactly when the approved
amount does not cover the requested amount; otherwise the transaction
proceeds and the debited/charged amount is the approved amount — which is
always at least the requested amount (never less; possibly more). -/
theorem C5_partial_substitutes_approved (db : LedgerDB) (cache : Cache)
    (items : List ItemData) (amount : Int) (uid : Nat) (pid : String) (txid now : Nat)
    (hpart : (check_transaction_eligibility items cache).fst = PolicyDecision.partialApproval)
    (hpos : 0 < amount) (hne : items ≠ [])
    (hbal : ¬(get_user_balance db uid < amount)) :
    ((check_transaction_eligibility items cache).snd.snd.fst < amount →
      ∀ authorized, spend_rewards db cache items amount uid authorized pid txid now =
        .error ⟨403, "Transaction partially denied"⟩)
    ∧ (amount ≤ (check_transaction_eligibility items cache).snd.snd.fst →
      spend_rewards db cache items amount uid true pid txid now =
        .ok ({ transaction_id := txid, status := "approved",
               amount := (check_transaction_eligibility items cache).snd.snd.fst,
               payment_intent_id := pid,
               decision := PolicyDecision.partialApproval,
               approved_amount := (check_transaction_eligibility items cache).snd.snd.fst },
             ⟨db.entries ++
               [⟨txid, uid, -(check_transaction_eligibility items cache).snd.snd.fst,
                 "spend", some pid, some "mixed", none, now⟩]⟩,
             (check_transaction_eligibility items cache).snd.snd.snd)) := by
  have hnz : ¬(amount ≤ 0) := not_le.mpr hpos
  have hemp : ¬(items.isEmpty = true) := by simpa using hne
  have hnd : ¬((check_transaction_eligibility items cache).fst = PolicyDecision.deny) := by
    rw [hpart]
    intro hcontra
    cases hcontra
  constructor
  · intro hlt authorized
    simp only [spend_rewards]
    rw [if_neg hnz, if_neg hemp, if_neg hbal, if_neg hnd, if_pos ⟨hpart, hlt⟩]
  · intro hge
    have hnless : ¬((check_transaction_eligibility items cache).fst =
        PolicyDecision.partialApproval ∧
        (check_transaction_eligibility items cache).snd.snd.fst < amount) := by
      rintro ⟨-, hlt⟩
      exact absurd hlt (not_lt.mpr hge)
    have happr : 0 < (check_transaction_eligibility items cache).snd.snd.fst :=
      lt_of_lt_of_le hpos hge
    have hcreate : create_transaction db uid
        (-(check_transaction_eligibility items cache).snd.snd.fst) "spend"
        (some pid) (some "mixed") none txid now =
        .ok (⟨txid, uid, -(check_transaction_eligibility items cache).snd.snd.fst,
          "spend", some pid, some "mixed", none, now⟩,
          ⟨db.entries ++
            [⟨txid, uid, -(check_transaction_eligibility items cache).snd.snd.fst,
              "spend", some pid, some "mixed", none, now⟩]⟩) := by
      unfold create_transaction
      rw [if_neg (by decide)]
      rw [if_neg ?both]
      case both =>
        simp only [beq_iff_eq]
        omega
    simp only [spend_rewards]
    rw [if_neg hnz, if_neg hemp, if_neg hbal, if_neg hnd, if_neg hnless,
      if_pos hpart, if_neg (by simp : ¬((!true) = true)), hcreate, hpart]

/-- Witness for C5: requesting 2.00 against a mixed basket whose eligible
part is worth 3.50 yields a partial decision that proceeds and debits 3.50
— the approved amount, more than requested. -/
theorem C5_partial_substitutes_approved_witness :
    (check_transaction_eligibility
        [⟨none, none, none, some "dairy", 350, 1⟩,
         ⟨none, none, none, some "alcohol", 500, 1⟩] []).fst =
      PolicyDecision.partialApproval ∧
    spend_rewards ⟨[⟨1, 1, 1000, "earn", none, none, none, 0⟩]⟩ []
        [⟨none, none, none, some "dairy", 350, 1⟩,
         ⟨none, none, none, some "alcohol", 500, 1⟩] 200 1 true "pi_9" 42 7 =
      .ok ({ transaction_id := 42, status := "approved", amount := 350,
             payment_intent_id := "pi_9", decision := PolicyDecision.partialApproval,
             approved_amount := 350 },
           ⟨[⟨1, 1, 1000, "earn", none, none, none, 0⟩,
             ⟨42, 1, -350, "spend", some "pi_9", some "mixed", none, 7⟩]⟩,
           []) := by
  refine ⟨by decide, ?_⟩
  exact (C5_partial_substitutes_approved ⟨[⟨1, 1, 1000, "earn", none, none, none, 0⟩]⟩ []
    [⟨none, none, none, some "dairy", 350, 1⟩, ⟨none, none, none, some "alcohol", 500, 1⟩]
    200 1 "pi_9" 42 7 (by decide) (by decide) (by decide) (by decide)).2 (by decide)

/-! ## C9: history ordering -/

instance : IsTotal LedgerEntry histDesc :=
  ⟨fun a b => Nat.le_total b.created_at a.created_at⟩

instance : IsTrans LedgerEntry histDesc :=
  ⟨fun _ _ _ hab hbc => le_trans hbc hab⟩

/-- The claim's ordering: creation time (descending) first, then the entry
identifier as a tie-break. -/
def histDescById (a b : LedgerEntry) : Prop :=
  b.created_at < a.created_at ∨
    (a.created_at = b.created_at ∧ a.transaction_id ≤ b.transaction_id)

instance : DecidableRel histDescById := fun a b => by
  unfold histDescById
  infer_instance

/-- The history operation as the claim describes it: sorted by creation
time descending with an entry-identifier tie-break, then paginated. -/
def history_claim_order (db : LedgerDB) (user_id : Nat) (limit offset : Nat) :
    List LedgerEntry :=
  let rows := db.entries.filter (fun e => e.user_id == user_id)
  ((List.insertionSort histDescById rows).drop offset).take limit

/-- C9 counterexample: the query orders by `created_at DESC` only; two
entries with the same timestamp come back in table order (identifier 5
before identifier 2), not in the claimed identifier tie-break order. -/
theorem C9_counterexample_no_id_tiebreak :
    get_transaction_history
        ⟨[⟨5, 1, 100, "earn", none, none, none, 10⟩,
          ⟨2, 1, 200, "earn", none, none, none, 10⟩]⟩ 1 10 0 =
      [⟨5, 1, 100, "earn", none, none, none, 10⟩,
       ⟨2, 1, 200, "earn", none, none, none, 10⟩]
    ∧ history_claim_order
        ⟨[⟨5, 1, 100, "earn", none, none, none, 10⟩,
          ⟨2, 1, 200, "earn", none, none, none, 10⟩]⟩ 1 10 0 =
      [⟨2, 1, 200, "earn", none, none, none, 10⟩,
       ⟨5, 1, 100, "earn", none, none, none, 10⟩]
    ∧ get_transaction_history
        ⟨[⟨5, 1, 100, "earn", none, none, none, 10⟩,
          ⟨2, 1, 200, "earn", none, none, none, 10⟩]⟩ 1 10 0 ≠
      history_claim_order
        ⟨[⟨5, 1, 100, "earn", none, none, none, 10⟩,
          ⟨2, 1, 200, "earn", none, none, none, 10⟩]⟩ 1 10 0 := by
  exact ⟨by decide, by decide, by decide⟩

/-- C9 (amended): history returns the account's entries newest-first by
creation time, paginated by offset then limit (at most `limit` entries, all
belonging to the account; the full account row set when offset is 0 and
limit covers it).  Entries with equal timestamps stay in table order — no
entry-identifier tie-break is applied.  Re-reading with no intervening
append is deterministic (the operation is a pure function of the table). -/
theorem C9_history_newest_first (db : LedgerDB) (uid : Nat) (limit offset : Nat) :
    (get_transaction_history db uid limit offset).Pairwise histDesc
    ∧ (get_transaction_history db uid limit offset).length ≤ limit
    ∧ (∀ e ∈ get_transaction_history db uid limit offset,
        e.user_id = uid ∧ e ∈ db.entries)
    ∧ (offset = 0 →
        (db.entries.filter (fun e => e.user_id == uid)).length ≤ limit →
        (get_transaction_history db uid limit offset).Perm
          (db.entries.filter (fun e => e.user_id == uid))) := by
  refine ⟨?_, ?_, ?_, ?_⟩
  · have hs : (List.insertionSort histDesc
        (db.entries.filter (fun e => e.user_id == uid))).Pairwise histDesc :=
      List.sorted_insertionSort histDesc _
    simp only [get_transaction_history]
    exact hs.sublist ((List.take_sublist _ _).trans (List.drop_sublist _ _))
  · simp only [get_transaction_history]
    rw [List.length_take]
    exact min_le_left _ _
  · intro e he
    simp only [get_transaction_history] at he
    have h2 : e ∈ List.insertionSort histDesc
        (db.entries.filter (fun e => e.user_id == uid)) :=
      ((List.take_sublist _ _).trans (List.drop_sublist _ _)).subset he
    have h3 : e ∈ db.entries.filter (fun e => e.user_id == uid) :=
      (List.perm_insertionSort histDesc _).mem_iff.mp h2
    have h4 := List.mem_filter.mp h3
    exact ⟨by simpa using h4.2, h4.1⟩
  · intro hoff hlen
    subst hoff
    simp only [get_transaction_history]
    rw [List.drop_zero,
      List.take_of_length_le (by rw [List.length_insertionSort]; exact hlen)]
    exact List.perm_insertionSort _ _

/-- Witness for C9 at a one-entry ledger with offset 0 and ample limit. -/
theorem C9_history_newest_first_witness :
    ((⟨[⟨1, 3, 500, "earn", none, none, none, 4⟩]⟩ : LedgerDB).entries.filter
        (fun e => e.user_id == 3)).length ≤ 5 ∧
    (get_transaction_history ⟨[⟨1, 3, 500, "earn", none, none, none, 4⟩]⟩ 3 5 0).Perm
      ((⟨[⟨1, 3, 500, "earn", none, none, none, 4⟩]⟩ : LedgerDB).entries.filter
        (fun e => e.user_id == 3)) := by
  refine ⟨by decide, ?_⟩
  exact (C9_history_newest_first ⟨[⟨1, 3, 500, "earn", none, none, none, 4⟩]⟩
    3 5 0).2.2.2 rfl (by decide)
